import Mathlib

/-!
# A shallow embedding of the pysersic rendering module

This file models the rendering engine of pysersic (file pysersic/rendering.py):
the class BaseRenderer with its subclasses PixelRenderer, FourierRenderer and
HybridRenderer, the module-level profile evaluators, and the Gaussian
decomposition of Sersic profiles.

Conventions of the embedding:

* Scalars are drawn from an abstract linearly ordered field K (the code computes
  with floating point; we use exact field arithmetic, instantiated at ℚ for
  concrete evaluations).
* Transcendental primitives (exp, log, sqrt, trig, real powers, the
  Gauss-Legendre quadrature table) have irrational values, so they are opaque
  parameters collected in the structure NumKit; every claim proved here holds
  for all instantiations of those parameters.
* The two-dimensional real FFT and its inverse are linear maps; they are
  modelled as bilinear kernel sums with abstract twiddle-factor kernels
  (structure FFTModel), exactly the shape of the true discrete Fourier
  transform.
* Complex array entries are real/imaginary pairs with concrete arithmetic.
* Images are total functions on a finite pixel grid.  NumPy/JAX meshgrid with
  the default xy indexing gives the grids X and Y the shape (W, H) for an image
  shape (H, W); the value-level model therefore fixes a square image of side N
  (the shape analysis of non-square images is done separately by a dedicated
  shape calculus near the end of the definitions).
* Control flow (dispatch over profile-type strings, the render_multi loops,
  argument unpacking, array slicing with Python semantics, endpoint updates of
  the amplitude vector) is embedded concretely, following the source line by
  line.
-/

/-! ## Complex pairs and abstract numeric primitives -/

/-- One complex array entry, as a real/imaginary pair over the scalar field. -/
abbrev Cx (K : Type) := K × K

/-- Complex multiplication on pairs. -/
def cMul {K : Type} [Field K] (z w : Cx K) : Cx K :=
  (z.1 * w.1 - z.2 * w.2, z.1 * w.2 + z.2 * w.1)

/-- Embedding of a real scalar as a complex pair. -/
def cOf {K : Type} [Field K] (a : K) : Cx K := (a, 0)

/-- Scaling of a complex pair by a real scalar. -/
def cSMul {K : Type} [Field K] (a : K) (z : Cx K) : Cx K := (a * z.1, a * z.2)

/-- Division of a complex pair by a real scalar. -/
def cDivR {K : Type} [Field K] (z : Cx K) (a : K) : Cx K := (z.1 / a, z.2 / a)

/-- The transcendental primitives used by rendering.py, left abstract because
their floating-point values are irrational: jnp.pi, jnp.exp, jnp.log, jnp.log10,
the base-10 power used by jnp.logspace, jnp.sqrt, the real power a ** b,
the complex exponential and complex-base real-exponent power, jnp.cos, jnp.sin,
jax.scipy.special.gammaln, and the Gauss-Legendre nodes/weights returned by
numpy.polynomial.legendre.leggauss (indexed by order and node number). -/
structure NumKit (K : Type) where
  pi : K
  exp : K → K
  log : K → K
  log10 : K → K
  pow10 : K → K
  sqrt : K → K
  rpow : K → K → K
  cexp : Cx K → Cx K
  cpowr : Cx K → K → Cx K
  cos : K → K
  sin : K → K
  gammaln : K → K
  glNode : ℕ → ℕ → K
  glWeight : ℕ → ℕ → K

/-- Pixel index set of a square N x N image: (row, column) of the arrays
X and Y produced by jnp.meshgrid. -/
abbrev Pix (N : ℕ) := Fin N × Fin N

/-- Frequency index set of the jnp.fft.rfft2 output for an N x N input:
N rows (full frequencies along axis 0) and N/2+1 columns (real-FFT layout
along the last axis). -/
abbrev Freq (N : ℕ) := Fin N × Fin (N / 2 + 1)

/-- The twiddle-factor kernels of jnp.fft.rfft2 and jnp.fft.irfft2 on an
N x N grid.  rfft2 is the linear map im ↦ (f ↦ Σ_p tw(f,p)·im(p)) with complex
twiddles tw; irfft2 is an ℝ-linear map from the half-spectrum back to real
images (it completes the spectrum by conjugate symmetry, so it is real-linear
but not complex-linear); both are recorded here through their real kernel
components, which have irrational values and stay abstract. -/
structure FFTModel (K : Type) (N : ℕ) where
  fwdRe : Freq N → Pix N → K
  fwdIm : Freq N → Pix N → K
  invRe : Pix N → Freq N → K
  invIm : Pix N → Freq N → K

/-- jnp.fft.rfft2 of a real N x N image, as the kernel sum it is. -/
def rfft2M {K : Type} [Field K] {N : ℕ} (M : FFTModel K N) (im : Pix N → K) :
    Freq N → Cx K :=
  fun f => (∑ p : Pix N, M.fwdRe f p * im p, ∑ p : Pix N, M.fwdIm f p * im p)

/-- jnp.fft.irfft2 (with s equal to the image shape) of a half-spectrum array,
as the real-linear kernel sum it is. -/
def irfft2M {K : Type} [Field K] {N : ℕ} (M : FFTModel K N) (F : Freq N → Cx K) :
    Pix N → K :=
  fun p => ∑ f : Freq N, (M.invRe p f * (F f).1 + M.invIm p f * (F f).2)

/-- Entry k of jnp.fft.rfftfreq n (the sample frequency k/n). -/
def rfreqVal {K : Type} [Field K] (n k : ℕ) : K := (k : K) / (n : K)

/-- Entry i of jnp.fft.fftfreq n: i/n for i below the Nyquist split,
(i - n)/n beyond it. -/
def ffreqVal {K : Type} [Field K] (n i : ℕ) : K :=
  if i < (n + 1) / 2 then (i : K) / (n : K) else ((i : K) - (n : K)) / (n : K)

/-- Entry of the coordinate array X built by
jnp.meshgrid(jnp.arange(H), jnp.arange(W)): with the default xy indexing the
result has shape (W, H) and X[i, j] = j. -/
def Xg {K : Type} [Field K] {H W : ℕ} (p : Fin W × Fin H) : K := ((p.2 : ℕ) : K)

/-- Entry of the coordinate array Y built by the same meshgrid: Y[i, j] = i. -/
def Yg {K : Type} [Field K] {H W : ℕ} (p : Fin W × Fin H) : K := ((p.1 : ℕ) : K)

/-- The grid midpoint n/2 - 0.5 used for x_mid and y_mid in
BaseRenderer.__init__. -/
def gridMid {K : Type} [Field K] (n : ℕ) : K := (n : K) / 2 - 0.5

/-- The frequency grid FX (rfftfreq values along the last index). -/
def FXgrid {K : Type} [Field K] (N : ℕ) : Freq N → K :=
  fun f => rfreqVal N (f.2 : ℕ)

/-- The frequency grid FY (fftfreq values along the first index). -/
def FYgrid {K : Type} [Field K] (N : ℕ) : Freq N → K :=
  fun f => ffreqVal N (f.1 : ℕ)

/-! ## Module-level profile evaluators of rendering.py -/

/-- render_sersic_2d: closed-form elliptical Sersic surface brightness at one
grid point (X, Y), with bn = 1.9992 n - 0.3271, the gamma-function
normalization and the 1/(1 - ellip) axis-ratio factor, exactly as in the
source. -/
def renderSersic2d {K : Type} [LinearOrderedField K] (kit : NumKit K)
    (X Y xc yc flux r_eff n ellip theta : K) : K :=
  let bn := 1.9992 * n - 0.3271
  let a := r_eff
  let b := (1 - ellip) * r_eff
  let cos_theta := kit.cos theta
  let sin_theta := kit.sin theta
  let x_maj := (X - xc) * cos_theta + (Y - yc) * sin_theta
  let x_min := -(X - xc) * sin_theta + (Y - yc) * cos_theta
  let amplitude := flux * kit.rpow bn (2 * n)
    / (kit.exp (bn + kit.gammaln (2 * n)) * r_eff ^ 2 * kit.pi * 2 * n)
  let z := kit.sqrt ((x_maj / a) ^ 2 + (x_min / b) ^ 2)
  amplitude * kit.exp (-bn * (kit.rpow z (1 / n) - 1)) / (1 - ellip)

/-- sersic1D evaluated at a complex radius (the Gaussian decomposition calls it
at sigma times the complex nodes betas): bn = 1.9992 n - 0.3271,
Ie = flux / (re² 2π n exp(bn + gammaln 2n)) · bn^(2n), value
Ie · exp(-bn ((r/re)^(1/n) - 1)). -/
def sersic1DC {K : Type} [LinearOrderedField K] (kit : NumKit K) (r : Cx K)
    (flux re n : K) : Cx K :=
  let bn := 1.9992 * n - 0.3271
  let Ie := flux / (re * re * 2 * kit.pi * n * kit.exp (bn + kit.gammaln (2 * n)))
    * kit.rpow bn (2 * n)
  cSMul Ie (kit.cexp (cSMul (-bn) (kit.cpowr (cDivR r re) (1 / n) - cOf 1)))

/-- render_gaussian_fourier: the sum over (amplitude, sigma) components of
amp · exp(-(Ui² + Vi² q²)(2π²σ²) - 2πi FX xc - 2πi FY yc) at one frequency
sample, with rotated frequency coordinates Ui, Vi. -/
def renderGaussianFourier {K : Type} [LinearOrderedField K] {N : ℕ}
    (kit : NumKit K) (FX FY : Freq N → K) (amps sigmas : List K)
    (xc yc theta q : K) : Freq N → Cx K :=
  fun f =>
    let Ui := FX f * kit.cos theta + FY f * kit.sin theta
    let Vi := -1 * FX f * kit.sin theta + FY f * kit.cos theta
    ((amps.zip sigmas).map (fun as =>
      cSMul as.1 (kit.cexp
        (-1 * (Ui * Ui + Vi * Vi * q * q) * (2 * kit.pi * kit.pi * as.2 * as.2),
         -(2 * kit.pi * FX f * xc) - 2 * kit.pi * FY f * yc)))).sum

/-- render_pointsource_fourier: a pure phase ramp of amplitude flux. -/
def renderPointsourceFourier {K : Type} [LinearOrderedField K] {N : ℕ}
    (kit : NumKit K) (FX FY : Freq N → K) (xc yc flux : K) : Freq N → Cx K :=
  fun f =>
    cSMul flux (kit.cexp (0, -(2 * kit.pi * FX f * xc) - 2 * kit.pi * FY f * yc))

/-- render_gaussian_pixel: the sum over (amplitude, sigma, axis-ratio)
components of amp/(2πσ²q) · exp(-(Xi² + Yi²/q²)/(2σ²)) at one pixel, with
rotated centered coordinates Xi, Yi.  The axis ratio is a per-component list,
as in the hybrid renderer where it receives the array q_obs. -/
def renderGaussianPixel {K : Type} [LinearOrderedField K] {N : ℕ}
    (kit : NumKit K) (X Y : Pix N → K) (amps sigmas qs : List K)
    (xc yc theta : K) : Pix N → K :=
  fun p =>
    let Xbar := X p - xc
    let Ybar := Y p - yc
    let Xi := Xbar * kit.cos theta + Ybar * kit.sin theta
    let Yi := -1 * Xbar * kit.sin theta + Ybar * kit.cos theta
    ((amps.zip (sigmas.zip qs)).map (fun asq =>
      asq.1 / (2 * kit.pi * asq.2.1 * asq.2.1 * asq.2.2)
        * kit.exp (-1 * (Xi * Xi + Yi * Yi / (asq.2.2 * asq.2.2))
            / (2 * asq.2.1 * asq.2.1)))).sum

/-! ## The Gaussian decomposition (calculate_etas_betas consumers)

sersic_gauss_decomp takes the precomputed weight/node arrays etas and betas as
arguments, exactly as in the source. -/

/-- jnp.logspace(lo, hi, num): 10 raised to linspace(lo, hi, num), with
endpoint spacing (hi - lo)/(num - 1). -/
def logspaceK {K : Type} [LinearOrderedField K] (kit : NumKit K) (lo hi : K)
    (num : ℕ) : List K :=
  (List.range num).map (fun (i : ℕ) =>
    kit.pow10 (lo + (i : K) * (hi - lo) / ((num : K) - 1)))

/-- The widths jnp.logspace(log10 sigma_start, log10 sigma_end, n_comp) laid
out by sersic_gauss_decomp. -/
def decompSigmas {K : Type} [LinearOrderedField K] (kit : NumKit K)
    (sigma_start sigma_end : K) (n_comp : ℕ) : List K :=
  logspaceK kit (kit.log10 sigma_start) (kit.log10 sigma_end) n_comp

/-- One row of jnp.sum(etas * sersic1D(outer(sigmas, betas), ...).real, axis=1):
the etas-weighted sum of the real part of the 1-D Sersic profile at the complex
nodes sigma · betas. -/
def fSigmaAt {K : Type} [LinearOrderedField K] (kit : NumKit K) (etas : List K)
    (betas : List (Cx K)) (flux re n : K) (sigma : K) : K :=
  ((etas.zip betas).map (fun eb =>
    eb.1 * (sersic1DC kit (cSMul sigma eb.2) flux re n).1)).sum

/-- jnp.diff of a list: successive differences. -/
def listDiff {K : Type} [LinearOrderedField K] (l : List K) : List K :=
  (l.tail.zip l).map (fun ab => ab.1 - ab.2)

/-- Mean of a list (sum over length). -/
def listMean {K : Type} [LinearOrderedField K] (l : List K) : K :=
  l.sum / (l.length : K)

/-- del_log_sigma = jnp.abs(jnp.diff(jnp.log(sigmas)).mean()). -/
def delLogSigmaK {K : Type} [LinearOrderedField K] (kit : NumKit K)
    (sigmas : List K) : K :=
  |listMean (listDiff (sigmas.map kit.log))|

/-- The in-place-looking update arr.at[i].multiply(c). -/
def listMulAt {K : Type} [LinearOrderedField K] (l : List K) (i : ℕ) (c : K) :
    List K :=
  l.set i (l.getD i 0 * c)

/-- sersic_gauss_decomp: geometric widths, f_sigma values, trapezoid
conversion with the two endpoint halvings (indices 0 and -1), and the final
2π·sigma² scaling, following the source line by line. -/
def sersicGaussDecomp {K : Type} [LinearOrderedField K] (kit : NumKit K)
    (flux re n : K) (etas : List K) (betas : List (Cx K))
    (sigma_start sigma_end : K) (n_comp : ℕ) : List K × List K :=
  let sigmas := decompSigmas kit sigma_start sigma_end n_comp
  let f_sigmas := sigmas.map (fSigmaAt kit etas betas flux re n)
  let del_log_sigma := delLogSigmaK kit sigmas
  let amps0 := f_sigmas.map (fun x => x * del_log_sigma / kit.sqrt (2 * kit.pi))
  let amps1 := listMulAt amps0 0 0.5
  let amps2 := listMulAt amps1 (amps1.length - 1) 0.5
  let amps3 := amps2.zipWith (fun a s => a * 2 * kit.pi * s * s) sigmas
  (amps3, sigmas)

/-! ## BaseRenderer geometry

BaseRenderer.__init__ stores the image shape, the PSF and its shape, the
coordinate and frequency grids, and the pre-shifted PSF FFT.  The image is
square of side N (see the shape calculus below for why non-square shapes do
not construct). -/

/-- The state a BaseRenderer holds after construction: the numeric primitives,
the FFT twiddle kernels for the N x N grid, and the PSF with its shape
(pixel_PSF entries as a total function; entries outside the shape are never
read). -/
structure BaseGeom (K : Type) (N : ℕ) where
  kit : NumKit K
  fft : FFTModel K N
  psH : ℕ
  psW : ℕ
  psf : ℕ → ℕ → K

/-- fft_shift_arr_x:
exp(complex(0,-1) · 2 · 3.1415 · (-1) · (psf_shape[0]/2 - 0.5) · FX), with FX
the rfftfreq grid along the last axis (the source uses the literal 3.1415,
not pi). -/
def shiftXg {K : Type} [LinearOrderedField K] {N : ℕ} (g : BaseGeom K N)
    (f : Freq N) : Cx K :=
  g.kit.cexp (cMul (0, -1)
    (cOf (2 * 3.1415 * (-1) * ((g.psH : K) / 2 - 0.5) * rfreqVal N (f.2 : ℕ))))

/-- fft_shift_arr_y: the same phase ramp along the fftfreq axis, with the
kernel-width pivot psf_shape[1]/2 - 0.5. -/
def shiftYg {K : Type} [LinearOrderedField K] {N : ℕ} (g : BaseGeom K N)
    (f : Freq N) : Cx K :=
  g.kit.cexp (cMul (0, -1)
    (cOf (2 * 3.1415 * (-1) * ((g.psW : K) / 2 - 0.5) * ffreqVal N (f.1 : ℕ))))

/-- The PSF kernel zero-padded (or cropped) to the image shape, as
jnp.fft.rfft2(psf, s = im_shape) does before transforming. -/
def psfPadded {K : Type} [LinearOrderedField K] {N : ℕ} (g : BaseGeom K N) :
    Pix N → K :=
  fun p =>
    if (p.1 : ℕ) < g.psH ∧ (p.2 : ℕ) < g.psW then g.psf (p.1 : ℕ) (p.2 : ℕ) else 0

/-- self.PSF_fft: rfft2 of the padded kernel times both recentring phase
ramps. -/
def psfFFTg {K : Type} [LinearOrderedField K] {N : ℕ} (g : BaseGeom K N) :
    Freq N → Cx K :=
  fun f => cMul (cMul (rfft2M g.fft (psfPadded g) f) (shiftXg g f)) (shiftYg g f)

/-- PixelRenderer's jitted conv: irfft2(rfft2(image) * PSF_fft, s = im_shape). -/
def pixelConv {K : Type} [LinearOrderedField K] {N : ℕ} (g : BaseGeom K N)
    (image : Pix N → K) : Pix N → K :=
  irfft2M g.fft (fun f => cMul (rfft2M g.fft image f) (psfFFTg g f))

/-- The conv_and_inv_FFT of FourierRenderer and HybridRenderer:
irfft2(F_im * PSF_fft, s = im_shape). -/
def convAndInvFFT {K : Type} [LinearOrderedField K] {N : ℕ} (g : BaseGeom K N)
    (F_im : Freq N → Cx K) : Pix N → K :=
  irfft2M g.fft (fun f => cMul (F_im f) (psfFFTg g f))

/-! ## PixelRenderer -/

/-- The configuration PixelRenderer.__init__ adds to the base state. -/
structure PixelGeom (K : Type) (N : ℕ) where
  base : BaseGeom K N
  osPixelSize : ℕ
  numOs : ℕ

/-- The halved Gauss-Legendre node dx[b] = leggauss(num_os).nodes[b] / 2. -/
def dxNode {K : Type} [LinearOrderedField K] {N : ℕ} (g : PixelGeom K N)
    (b : ℕ) : K :=
  g.base.kit.glNode g.numOs b / 2

/-- The halved Gauss-Legendre weight w[a] = leggauss(num_os).weights[a] / 2. -/
def wNode {K : Type} [LinearOrderedField K] {N : ℕ} (g : PixelGeom K N)
    (a : ℕ) : K :=
  g.base.kit.glWeight g.numOs a / 2

/-- i_mid = int(im_shape[0]/2) (equal to j_mid on the square grid). -/
def iMid (N : ℕ) : ℕ := N / 2

/-- Python slice-bound normalization for one bound v against axis length L:
negative bounds count from the end and everything is clamped to [0, L]. -/
def sliceIdx (v : ℤ) (L : ℕ) : ℕ :=
  (if v < 0 then max ((L : ℤ) + v) 0 else min v (L : ℤ)).toNat

/-- x_os_lo = i_mid - os_pixel_size as the Python integer it is (it may be
negative on small images). -/
def xOsLoZ {K : Type} {N : ℕ} (g : PixelGeom K N) : ℤ :=
  (iMid N : ℤ) - (g.osPixelSize : ℤ)

/-- x_os_hi = i_mid + os_pixel_size. -/
def xOsHiZ {K : Type} {N : ℕ} (g : PixelGeom K N) : ℤ :=
  (iMid N : ℤ) + (g.osPixelSize : ℤ)

/-- First index of the slice x_os_lo : x_os_hi on an axis of length N. -/
def osLoN {K : Type} {N : ℕ} (g : PixelGeom K N) : ℕ := sliceIdx (xOsLoZ g) N

/-- One-past-last index of the slice x_os_lo : x_os_hi on an axis of length N. -/
def osHiN {K : Type} {N : ℕ} (g : PixelGeom K N) : ℕ := sliceIdx (xOsHiZ g) N

/-- The jitted render_int_sersic: render_sersic_2d on the full grid, with the
pixels of the slice [x_os_lo : x_os_hi, y_os_lo : y_os_hi] overwritten by the
Gauss-Legendre weighted sub-pixel sum over X_os = X + dx_os, Y_os = Y + dy_os
(dx_os[a][b] = dx[b], dy_os[a][b] = dx[a], w_os[a][b] = w[b]·w[a] from the
meshgrid construction; the sum runs over the two oversampling axes). -/
def renderIntSersic {K : Type} [LinearOrderedField K] {N : ℕ} (g : PixelGeom K N)
    (xc yc flux r_eff n ellip theta : K) : Pix N → K :=
  fun p =>
    if osLoN g ≤ (p.1 : ℕ) ∧ (p.1 : ℕ) < osHiN g
        ∧ osLoN g ≤ (p.2 : ℕ) ∧ (p.2 : ℕ) < osHiN g then
      ∑ a ∈ Finset.range g.numOs, ∑ b ∈ Finset.range g.numOs,
        renderSersic2d g.base.kit (Xg p + dxNode g b) (Yg p + dxNode g a)
            xc yc flux r_eff n ellip theta
          * (wNode g b * wNode g a)
    else
      renderSersic2d g.base.kit (Xg p) (Yg p) xc yc flux r_eff n ellip theta

/-- PixelRenderer.render_sersic: intrinsic image then conv. -/
def pixelRenderSersic {K : Type} [LinearOrderedField K] {N : ℕ}
    (g : PixelGeom K N) (xc yc flux r_eff n ellip theta : K) : Pix N → K :=
  pixelConv g.base (renderIntSersic g xc yc flux r_eff n ellip theta)

/-- PixelRenderer.render_doublesersic: the sum of the two intrinsic images,
convolved once. -/
def pixelRenderDoublesersic {K : Type} [LinearOrderedField K] {N : ℕ}
    (g : PixelGeom K N)
    (xc yc flux f_1 r_eff_1 n_1 ellip_1 r_eff_2 n_2 ellip_2 theta : K) :
    Pix N → K :=
  pixelConv g.base
    (renderIntSersic g xc yc (flux * f_1) r_eff_1 n_1 ellip_1 theta
      + renderIntSersic g xc yc (flux * (1 - f_1)) r_eff_2 n_2 ellip_2 theta)

/-- Bilinear sampling of an (n0, n1)-shaped array at a fractional coordinate,
zero outside, as jax.scipy.ndimage.map_coordinates with order 1 and constant
mode computes it. -/
def bilinearSample {K : Type} [LinearOrderedField K] [FloorRing K]
    (A : ℕ → ℕ → K) (n0 n1 : ℕ) (c0 c1 : K) : K :=
  let i0 := ⌊c0⌋
  let j0 := ⌊c1⌋
  let t := c0 - (i0 : K)
  let u := c1 - (j0 : K)
  let sample : ℤ → ℤ → K := fun i j =>
    if 0 ≤ i ∧ i < (n0 : ℤ) ∧ 0 ≤ j ∧ j < (n1 : ℤ) then A i.toNat j.toNat else 0
  (1 - t) * (1 - u) * sample i0 j0 + (1 - t) * u * sample i0 (j0 + 1)
    + t * (1 - u) * sample (i0 + 1) j0 + t * u * sample (i0 + 1) (j0 + 1)

/-- PixelRenderer.render_pointsource: the flux-scaled PSF kernel resampled by
bilinear interpolation at coordinates (X - dx, Y - dy) with
dx = xc - psf_shape[0]/2, dy = yc - psf_shape[1]/2; not convolved again. -/
def pixelRenderPointsource {K : Type} [LinearOrderedField K] [FloorRing K]
    {N : ℕ} (g : PixelGeom K N) (xc yc flux : K) : Pix N → K :=
  fun p =>
    let dx := xc - (g.base.psH : K) / 2
    let dy := yc - (g.base.psW : K) / 2
    bilinearSample (fun i j => g.base.psf i j * flux) g.base.psH g.base.psW
      (Xg p - dx) (Yg p - dy)

/-! ## FourierRenderer -/

/-- The configuration FourierRenderer.__init__ adds to the base state.
get_amps_sigmas is the jitted closure built at construction: either the
degree-10 polynomial surrogate in log10 of the Sersic index (default,
use_poly_fit_amps = True) or the direct sersic_gauss_decomp call; its values
are abstract here because both involve the transcendental primitives, while the
decomposition itself is modelled concretely by sersicGaussDecomp above. -/
structure FourierGeom (K : Type) (N : ℕ) where
  base : BaseGeom K N
  fracStart : K
  fracEnd : K
  nSigma : ℕ
  precision : ℕ
  getAmpsSigmas : K → K → K → List K × List K

/-- The jitted render_sersic_mog_fourier: amplitudes and widths from
get_amps_sigmas, axis ratio q = 1 - ellip, summed Gaussian components in
frequency space. -/
def fourierSersicMog {K : Type} [LinearOrderedField K] {N : ℕ}
    (g : FourierGeom K N) (xc yc flux r_eff n ellip theta : K) :
    Freq N → Cx K :=
  let as := g.getAmpsSigmas flux r_eff n
  renderGaussianFourier g.base.kit (FXgrid N) (FYgrid N) as.1 as.2
    xc yc theta (1 - ellip)

/-- FourierRenderer.render_sersic. -/
def fourierRenderSersic {K : Type} [LinearOrderedField K] {N : ℕ}
    (g : FourierGeom K N) (xc yc flux r_eff n ellip theta : K) : Pix N → K :=
  convAndInvFFT g.base (fourierSersicMog g xc yc flux r_eff n ellip theta)

/-- FourierRenderer.render_doublesersic: one inverse transform of the summed
frequency images. -/
def fourierRenderDoublesersic {K : Type} [LinearOrderedField K] {N : ℕ}
    (g : FourierGeom K N)
    (xc yc flux f_1 r_eff_1 n_1 ellip_1 r_eff_2 n_2 ellip_2 theta : K) :
    Pix N → K :=
  convAndInvFFT g.base
    (fourierSersicMog g xc yc (flux * f_1) r_eff_1 n_1 ellip_1 theta
      + fourierSersicMog g xc yc (flux * (1 - f_1)) r_eff_2 n_2 ellip_2 theta)

/-- FourierRenderer.render_pointsource. -/
def fourierRenderPointsource {K : Type} [LinearOrderedField K] {N : ℕ}
    (g : FourierGeom K N) (xc yc flux : K) : Pix N → K :=
  convAndInvFFT g.base
    (renderPointsourceFourier g.base.kit (FXgrid N) (FYgrid N) xc yc flux)

/-! ## HybridRenderer -/

/-- The configuration HybridRenderer.__init__ adds to the base state; the
get_amps_sigmas field is as for FourierGeom. -/
structure HybridGeom (K : Type) (N : ℕ) where
  base : BaseGeom K N
  fracStart : K
  fracEnd : K
  nSigma : ℕ
  numPixelRender : ℕ
  precision : ℕ
  getAmpsSigmas : K → K → K → List K × List K

/-- self.sig_psf_approx: half the sum of the PSF's second-moment widths along
the two axes.  The source builds psf_X, psf_Y by an xy meshgrid of the two
kernel axes and multiplies them elementwise with the kernel, which broadcasts
only for a square kernel, so the kernel side is psH here. -/
def sigPsfApprox {K : Type} [LinearOrderedField K] {N : ℕ} (g : HybridGeom K N) :
    K :=
  let P := g.base.psH
  let psfSum := ∑ i ∈ Finset.range P, ∑ j ∈ Finset.range P, g.base.psf i j
  let meanX := (∑ i ∈ Finset.range P, ∑ j ∈ Finset.range P, (j : K))
    / ((P : K) * (P : K))
  let meanY := (∑ i ∈ Finset.range P, ∑ j ∈ Finset.range P, (i : K))
    / ((P : K) * (P : K))
  let sig_x := g.base.kit.sqrt
    ((∑ i ∈ Finset.range P, ∑ j ∈ Finset.range P, g.base.psf i j * (j : K) ^ 2)
      / psfSum - meanX ^ 2)
  let sig_y := g.base.kit.sqrt
    ((∑ i ∈ Finset.range P, ∑ j ∈ Finset.range P, g.base.psf i j * (i : K) ^ 2)
      / psfSum - meanY ^ 2)
  0.5 * (sig_x + sig_y)

/-- The jitted render_sersic_hybrid: the components are split at
n_sigma - num_pixel_render; the first (smallest) components are rendered in
Fourier space with the intrinsic widths and axis ratio, the remaining (largest)
components in pixel space with PSF-broadened widths sigmas_obs and axis ratios
q_obs; returns the pair (Fgal, im_gal). -/
def hybridSersicPair {K : Type} [LinearOrderedField K] {N : ℕ}
    (g : HybridGeom K N) (xc yc flux r_eff n ellip theta : K) :
    (Freq N → Cx K) × (Pix N → K) :=
  let as := g.getAmpsSigmas flux r_eff n
  let amps := as.1
  let sigmas := as.2
  let q := 1 - ellip
  let s := sigPsfApprox g
  let sigmas_obs := sigmas.map (fun x => g.base.kit.sqrt (x ^ 2 + s ^ 2))
  let q_obs := (sigmas.zip sigmas_obs).map (fun so =>
    g.base.kit.sqrt ((q * q * so.1 ^ 2 + s ^ 2) / so.2 ^ 2))
  let m := g.nSigma - g.numPixelRender
  let Fgal := renderGaussianFourier g.base.kit (FXgrid N) (FYgrid N)
    (amps.take m) (sigmas.take m) xc yc theta q
  let im_gal := renderGaussianPixel g.base.kit Xg Yg
    (amps.drop m) (sigmas_obs.drop m) (q_obs.drop m) xc yc theta
  (Fgal, im_gal)

/-- HybridRenderer.render_sersic: im + conv_and_inv_FFT(F). -/
def hybridRenderSersic {K : Type} [LinearOrderedField K] {N : ℕ}
    (g : HybridGeom K N) (xc yc flux r_eff n ellip theta : K) : Pix N → K :=
  (hybridSersicPair g xc yc flux r_eff n ellip theta).2
    + convAndInvFFT g.base (hybridSersicPair g xc yc flux r_eff n ellip theta).1

/-- HybridRenderer.render_doublesersic: im_1 + im_2 + conv_and_inv_FFT(F_1 + F_2). -/
def hybridRenderDoublesersic {K : Type} [LinearOrderedField K] {N : ℕ}
    (g : HybridGeom K N)
    (xc yc flux f_1 r_eff_1 n_1 ellip_1 r_eff_2 n_2 ellip_2 theta : K) :
    Pix N → K :=
  (hybridSersicPair g xc yc (flux * f_1) r_eff_1 n_1 ellip_1 theta).2
    + (hybridSersicPair g xc yc (flux * (1 - f_1)) r_eff_2 n_2 ellip_2 theta).2
    + convAndInvFFT g.base
        ((hybridSersicPair g xc yc (flux * f_1) r_eff_1 n_1 ellip_1 theta).1
          + (hybridSersicPair g xc yc (flux * (1 - f_1)) r_eff_2 n_2 ellip_2 theta).1)

/-- HybridRenderer.render_pointsource. -/
def hybridRenderPointsource {K : Type} [LinearOrderedField K] {N : ℕ}
    (g : HybridGeom K N) (xc yc flux : K) : Pix N → K :=
  convAndInvFFT g.base
    (renderPointsourceFourier g.base.kit (FXgrid N) (FYgrid N) xc yc flux)

/-! ## render_source dispatch

render_source(params, profile_type) resolves getattr(self, render_<tag>) and
calls it with the unpacked parameter list.  A tag with no matching render_*
attribute raises AttributeError; a wrong parameter count raises TypeError.
Tags naming the non-profile render_* attributes (render_sky, render_source,
render_multi, and the renderer-specific jitted fields) are resolved by getattr
as well; apart from the image-valued render_int_sersic of the PixelRenderer,
invoking them with a numeric parameter list is outside the image-valued model
and recorded as the distinct outcome nonProfileAttribute. -/

/-- Errors a render_source call can surface. -/
inductive CallErr where
  | typeError
  | attributeError
  | nonProfileAttribute
  deriving DecidableEq

/-- The names t with a render_t attribute on a PixelRenderer instance. -/
def pixelRenderAttrNames : List String :=
  ["sersic", "doublesersic", "pointsource", "exp", "dev", "int_sersic",
   "sky", "source", "multi"]

/-- The names t with a render_t attribute on a FourierRenderer instance. -/
def fourierRenderAttrNames : List String :=
  ["sersic", "doublesersic", "pointsource", "exp", "dev", "sersic_mog_fourier",
   "sky", "source", "multi"]

/-- The names t with a render_t attribute on a HybridRenderer instance (the
jitted hybrid pair is stored under the misspelled name render_sersic_hyrbid). -/
def hybridRenderAttrNames : List String :=
  ["sersic", "doublesersic", "pointsource", "exp", "dev", "sersic_hyrbid",
   "sky", "source", "multi"]

/-- PixelRenderer render_source. -/
def pixelRenderSource {K : Type} [LinearOrderedField K] [FloorRing K] {N : ℕ}
    (g : PixelGeom K N) (params : List K) (profile_type : String) :
    Except CallErr (Pix N → K) :=
  match profile_type, params with
  | "sersic", [xc, yc, flux, r_eff, n, ellip, theta] =>
      .ok (pixelRenderSersic g xc yc flux r_eff n ellip theta)
  | "sersic", _ => .error .typeError
  | "doublesersic", [xc, yc, flux, f_1, r_eff_1, n_1, ellip_1, r_eff_2, n_2, ellip_2, theta] =>
      .ok (pixelRenderDoublesersic g xc yc flux f_1 r_eff_1 n_1 ellip_1 r_eff_2 n_2 ellip_2 theta)
  | "doublesersic", _ => .error .typeError
  | "pointsource", [xc, yc, flux] => .ok (pixelRenderPointsource g xc yc flux)
  | "pointsource", _ => .error .typeError
  | "exp", [xc, yc, flux, r_eff, ellip, theta] =>
      .ok (pixelRenderSersic g xc yc flux r_eff 1 ellip theta)
  | "exp", _ => .error .typeError
  | "dev", [xc, yc, flux, r_eff, ellip, theta] =>
      .ok (pixelRenderSersic g xc yc flux r_eff 4 ellip theta)
  | "dev", _ => .error .typeError
  | "int_sersic", [xc, yc, flux, r_eff, n, ellip, theta] =>
      .ok (renderIntSersic g xc yc flux r_eff n ellip theta)
  | "int_sersic", _ => .error .typeError
  | ty, _ =>
      if ty ∈ ["sky", "source", "multi"] then .error .nonProfileAttribute
      else .error .attributeError

/-- FourierRenderer render_source. -/
def fourierRenderSource {K : Type} [LinearOrderedField K] {N : ℕ}
    (g : FourierGeom K N) (params : List K) (profile_type : String) :
    Except CallErr (Pix N → K) :=
  match profile_type, params with
  | "sersic", [xc, yc, flux, r_eff, n, ellip, theta] =>
      .ok (fourierRenderSersic g xc yc flux r_eff n ellip theta)
  | "sersic", _ => .error .typeError
  | "doublesersic", [xc, yc, flux, f_1, r_eff_1, n_1, ellip_1, r_eff_2, n_2, ellip_2, theta] =>
      .ok (fourierRenderDoublesersic g xc yc flux f_1 r_eff_1 n_1 ellip_1 r_eff_2 n_2 ellip_2 theta)
  | "doublesersic", _ => .error .typeError
  | "pointsource", [xc, yc, flux] => .ok (fourierRenderPointsource g xc yc flux)
  | "pointsource", _ => .error .typeError
  | "exp", [xc, yc, flux, r_eff, ellip, theta] =>
      .ok (fourierRenderSersic g xc yc flux r_eff 1 ellip theta)
  | "exp", _ => .error .typeError
  | "dev", [xc, yc, flux, r_eff, ellip, theta] =>
      .ok (fourierRenderSersic g xc yc flux r_eff 4 ellip theta)
  | "dev", _ => .error .typeError
  | ty, _ =>
      if ty ∈ ["sky", "source", "multi", "sersic_mog_fourier"] then
        .error .nonProfileAttribute
      else .error .attributeError

/-- HybridRenderer render_source. -/
def hybridRenderSource {K : Type} [LinearOrderedField K] {N : ℕ}
    (g : HybridGeom K N) (params : List K) (profile_type : String) :
    Except CallErr (Pix N → K) :=
  match profile_type, params with
  | "sersic", [xc, yc, flux, r_eff, n, ellip, theta] =>
      .ok (hybridRenderSersic g xc yc flux r_eff n ellip theta)
  | "sersic", _ => .error .typeError
  | "doublesersic", [xc, yc, flux, f_1, r_eff_1, n_1, ellip_1, r_eff_2, n_2, ellip_2, theta] =>
      .ok (hybridRenderDoublesersic g xc yc flux f_1 r_eff_1 n_1 ellip_1 r_eff_2 n_2 ellip_2 theta)
  | "doublesersic", _ => .error .typeError
  | "pointsource", [xc, yc, flux] => .ok (hybridRenderPointsource g xc yc flux)
  | "pointsource", _ => .error .typeError
  | "exp", [xc, yc, flux, r_eff, ellip, theta] =>
      .ok (hybridRenderSersic g xc yc flux r_eff 1 ellip theta)
  | "exp", _ => .error .typeError
  | "dev", [xc, yc, flux, r_eff, ellip, theta] =>
      .ok (hybridRenderSersic g xc yc flux r_eff 4 ellip theta)
  | "dev", _ => .error .typeError
  | ty, _ =>
      if ty ∈ ["sky", "source", "multi", "sersic_hyrbid"] then
        .error .nonProfileAttribute
      else .error .attributeError

/-! ## render_multi

Each render_multi loops over the (type, parameters) list, accumulating
per-source contributions into running totals initialized at zero (a pair of an
intrinsic and an observed image for the Pixel renderer, a frequency image for
the Fourier renderer, a frequency/pixel pair for the Hybrid renderer), then
applies the single final convolution.  A source whose recognized branch
unpacks the wrong number of parameters raises TypeError; a source with an
unrecognized tag matches no branch of the if/elif chain and is silently
skipped (zero contribution). -/

/-- The only error the loop body can raise (wrong parameter count on
unpacking). -/
inductive LoopErr where
  | typeError
  deriving DecidableEq

/-- The running total of the render_multi loop: zero start, contributions
added in list order, first raising source aborting the loop.  (The Python loop
folds from the left; this recursion groups the additions from the right, which
is the same total in the commutative monoid of the exact-arithmetic model.) -/
def sumContrib {S A : Type} [AddCommMonoid A] (contrib : S → Except LoopErr A) :
    List S → Except LoopErr A
  | [] => .ok 0
  | s :: rest =>
    match contrib s with
    | .error e => .error e
    | .ok a =>
      match sumContrib contrib rest with
      | .error e => .error e
      | .ok b => .ok (a + b)

/-- One PixelRenderer.render_multi loop iteration: its contribution to the
pair (int_im, obs_im). -/
def pixelContrib {K : Type} [LinearOrderedField K] [FloorRing K] {N : ℕ}
    (g : PixelGeom K N) : String × List K →
    Except LoopErr ((Pix N → K) × (Pix N → K)) :=
  fun s =>
    match s with
    | ("pointsource", [xc, yc, flux]) => .ok (0, pixelRenderPointsource g xc yc flux)
    | ("pointsource", _) => .error .typeError
    | ("sersic", [xc, yc, flux, r_eff, n, ellip, theta]) =>
        .ok (renderIntSersic g xc yc flux r_eff n ellip theta, 0)
    | ("sersic", _) => .error .typeError
    | ("exp", [xc, yc, flux, r_eff, ellip, theta]) =>
        .ok (renderIntSersic g xc yc flux r_eff 1 ellip theta, 0)
    | ("exp", _) => .error .typeError
    | ("dev", [xc, yc, flux, r_eff, ellip, theta]) =>
        .ok (renderIntSersic g xc yc flux r_eff 4 ellip theta, 0)
    | ("dev", _) => .error .typeError
    | ("doublesersic", [xc, yc, flux, f_1, r_eff_1, n_1, ellip_1, r_eff_2, n_2, ellip_2, theta]) =>
        .ok (renderIntSersic g xc yc (flux * f_1) r_eff_1 n_1 ellip_1 theta
          + renderIntSersic g xc yc (flux * (1 - f_1)) r_eff_2 n_2 ellip_2 theta, 0)
    | ("doublesersic", _) => .error .typeError
    | _ => .ok 0

/-- PixelRenderer.render_multi: conv(int_im) + obs_im. -/
def pixelRenderMulti {K : Type} [LinearOrderedField K] [FloorRing K] {N : ℕ}
    (g : PixelGeom K N) (srcs : List (String × List K)) :
    Except LoopErr (Pix N → K) :=
  (sumContrib (pixelContrib g) srcs).map (fun acc => pixelConv g.base acc.1 + acc.2)

/-- One FourierRenderer.render_multi loop iteration: its contribution to
F_tot. -/
def fourierContrib {K : Type} [LinearOrderedField K] {N : ℕ}
    (g : FourierGeom K N) : String × List K → Except LoopErr (Freq N → Cx K) :=
  fun s =>
    match s with
    | ("pointsource", [xc, yc, flux]) =>
        .ok (renderPointsourceFourier g.base.kit (FXgrid N) (FYgrid N) xc yc flux)
    | ("pointsource", _) => .error .typeError
    | ("sersic", [xc, yc, flux, r_eff, n, ellip, theta]) =>
        .ok (fourierSersicMog g xc yc flux r_eff n ellip theta)
    | ("sersic", _) => .error .typeError
    | ("exp", [xc, yc, flux, r_eff, ellip, theta]) =>
        .ok (fourierSersicMog g xc yc flux r_eff 1 ellip theta)
    | ("exp", _) => .error .typeError
    | ("dev", [xc, yc, flux, r_eff, ellip, theta]) =>
        .ok (fourierSersicMog g xc yc flux r_eff 4 ellip theta)
    | ("dev", _) => .error .typeError
    | ("doublesersic", [xc, yc, flux, f_1, r_eff_1, n_1, ellip_1, r_eff_2, n_2, ellip_2, theta]) =>
        .ok (fourierSersicMog g xc yc (flux * f_1) r_eff_1 n_1 ellip_1 theta
          + fourierSersicMog g xc yc (flux * (1 - f_1)) r_eff_2 n_2 ellip_2 theta)
    | ("doublesersic", _) => .error .typeError
    | _ => .ok 0

/-- FourierRenderer.render_multi: conv_and_inv_FFT(F_tot). -/
def fourierRenderMulti {K : Type} [LinearOrderedField K] {N : ℕ}
    (g : FourierGeom K N) (srcs : List (String × List K)) :
    Except LoopErr (Pix N → K) :=
  (sumContrib (fourierContrib g) srcs).map (fun F => convAndInvFFT g.base F)

/-- One HybridRenderer.render_multi loop iteration: its contribution to the
pair (F_tot, im_tot).  The source's dev branch adds only the Fourier half
F_cur of the hybrid pair to F_tot and never adds im_cur to im_tot, unlike the
sersic and exp branches; the model reproduces that omission. -/
def hybridContrib {K : Type} [LinearOrderedField K] {N : ℕ}
    (g : HybridGeom K N) : String × List K →
    Except LoopErr ((Freq N → Cx K) × (Pix N → K)) :=
  fun s =>
    match s with
    | ("pointsource", [xc, yc, flux]) =>
        .ok (renderPointsourceFourier g.base.kit (FXgrid N) (FYgrid N) xc yc flux, 0)
    | ("pointsource", _) => .error .typeError
    | ("sersic", [xc, yc, flux, r_eff, n, ellip, theta]) =>
        .ok (hybridSersicPair g xc yc flux r_eff n ellip theta)
    | ("sersic", _) => .error .typeError
    | ("exp", [xc, yc, flux, r_eff, ellip, theta]) =>
        .ok (hybridSersicPair g xc yc flux r_eff 1 ellip theta)
    | ("exp", _) => .error .typeError
    | ("dev", [xc, yc, flux, r_eff, ellip, theta]) =>
        .ok ((hybridSersicPair g xc yc flux r_eff 4 ellip theta).1, 0)
    | ("dev", _) => .error .typeError
    | ("doublesersic", [xc, yc, flux, f_1, r_eff_1, n_1, ellip_1, r_eff_2, n_2, ellip_2, theta]) =>
        .ok (hybridSersicPair g xc yc (flux * f_1) r_eff_1 n_1 ellip_1 theta
          + hybridSersicPair g xc yc (flux * (1 - f_1)) r_eff_2 n_2 ellip_2 theta)
    | ("doublesersic", _) => .error .typeError
    | _ => .ok 0

/-- HybridRenderer.render_multi: conv_and_inv_FFT(F_tot) + im_tot. -/
def hybridRenderMulti {K : Type} [LinearOrderedField K] {N : ℕ}
    (g : HybridGeom K N) (srcs : List (String × List K)) :
    Except LoopErr (Pix N → K) :=
  (sumContrib (hybridContrib g) srcs).map
    (fun acc => convAndInvFFT g.base acc.1 + acc.2)

/-! ## Sky models (BaseRenderer.flat_sky, tilted_plane_sky, render_sky)

render_sky(x, sky_type) takes an arbitrary Python object x (None, a scalar, or
a parameter array) and returns either that object unchanged (flat/none paths)
or a full image (tilted-plane path), or raises when the tilted-plane path
indexes a non-array; the possible inputs and outcomes are modelled by two small
sum types. -/

/-- The possible Python values passed as the sky parameter x. -/
inductive SkyArg (K : Type) where
  | noneArg : SkyArg K
  | num : K → SkyArg K
  | vec : List K → SkyArg K
  deriving DecidableEq

/-- The possible outcomes of render_sky: the argument passed through
unchanged, a rendered image on the (W, H)-shaped grid, or a Python error
(TypeError/IndexError from indexing a non-array or a short array). -/
inductive SkyOut (K : Type) (H W : ℕ) where
  | arg : SkyArg K → SkyOut K H W
  | grid : (Fin W × Fin H → K) → SkyOut K H W
  | err : SkyOut K H W

/-- BaseRenderer.flat_sky: returns its argument unchanged. -/
def flatSky {K : Type} [LinearOrderedField K] (H W : ℕ) (x : SkyArg K) :
    SkyOut K H W :=
  SkyOut.arg x

/-- BaseRenderer.tilted_plane_sky: x[0] + (X - x_mid)*x[1] + (Y - y_mid)*x[2]
on the meshgrid arrays, with x_mid = im_shape[0]/2 - 0.5 and
y_mid = im_shape[1]/2 - 0.5; indexing anything but an array of length at least
three raises. -/
def tiltedPlaneSky {K : Type} [LinearOrderedField K] (H W : ℕ) (x : SkyArg K) :
    SkyOut K H W :=
  match x with
  | SkyArg.vec (a :: b :: c :: _) =>
      SkyOut.grid (fun p => a + (Xg p - gridMid H) * b + (Yg p - gridMid W) * c)
  | _ => SkyOut.err

/-- BaseRenderer.render_sky: None selects the constant 0, the exact string
"flat" selects flat_sky, and every other tag falls through to
tilted_plane_sky (the final else branch has no tag check). -/
def renderSky {K : Type} [LinearOrderedField K] (H W : ℕ) (x : SkyArg K)
    (sky_type : Option String) : SkyOut K H W :=
  match sky_type with
  | none => SkyOut.arg (SkyArg.num 0)
  | some s => if s = "flat" then flatSky H W x else tiltedPlaneSky H W x

/-! ## Construction-time checks of BaseRenderer.__init__

The checks run in order: the PSF normalization check
(jnp.isclose(sum, 1.0, 0.1), i.e. |sum - 1| within atol 1e-8 plus rtol 0.1),
then the kernel-size check jnp.all(im_shape < psf_shape) -- both im_shape and
psf_shape are Python tuples, so < is the LEXICOGRAPHIC tuple comparison
producing a single bool, on which jnp.all is the identity: KernelError is
raised exactly when H < pH, or H = pH and W < pW -- then the construction of
PSF_fft, whose elementwise products must broadcast.  The
shapes are tracked by the shape calculus below; only the scalar PSF sum enters
the value-level checks. -/

/-- Construction-time failures of BaseRenderer.__init__. -/
inductive InitErr where
  | psfNormalization
  | kernelError
  | broadcastError
  deriving DecidableEq

/-! ## Shape calculus for arbitrary (H, W) image shapes

Shapes of the 2-D arrays involved in construction and rendering, with NumPy
broadcasting; used to settle how non-square image shapes behave. -/

/-- NumPy broadcasting of one axis pair. -/
def bdim (a b : ℕ) : Option ℕ :=
  if a = b then some a else if a = 1 then some b else if b = 1 then some a
  else none

/-- NumPy broadcasting of two 2-D shapes. -/
def bshape (s t : ℕ × ℕ) : Option (ℕ × ℕ) := do
  let d0 ← bdim s.1 t.1
  let d1 ← bdim s.2 t.2
  pure (d0, d1)

/-- Length of the rfft output along an axis of length n. -/
def rlen (n : ℕ) : ℕ := n / 2 + 1

/-- Shape of the meshgrid arrays X and Y for image shape (H, W): xy indexing
gives (W, H). -/
def xShape (H W : ℕ) : ℕ × ℕ := (W, H)

/-- Shape of the meshgrid arrays FX and FY built from rfftfreq(H) and
fftfreq(W): (W, H/2+1). -/
def fxShape (H W : ℕ) : ℕ × ℕ := (W, rlen H)

/-- Shape of self.PSF_fft: rfft2(psf, s = (H, W)) has shape (H, W/2+1) and is
multiplied elementwise by the two FX/FY-shaped phase ramps. -/
def psfFftShape (H W : ℕ) : Option (ℕ × ℕ) := do
  let s1 ← bshape (H, rlen W) (fxShape H W)
  bshape s1 (fxShape H W)

/-- Shape of conv(image): rfft2 of the image, broadcast against PSF_fft, then
irfft2 with s = (H, W). -/
def convShape (H W : ℕ) (img : ℕ × ℕ) : Option (ℕ × ℕ) := do
  let pf ← psfFftShape H W
  let _ ← bshape (img.1, rlen img.2) pf
  pure (H, W)

/-- Shape of conv_and_inv_FFT(F): F broadcast against PSF_fft, then irfft2
with s = (H, W). -/
def convInvShape (H W : ℕ) (F : ℕ × ℕ) : Option (ℕ × ℕ) := do
  let pf ← psfFftShape H W
  let _ ← bshape F pf
  pure (H, W)

/-- The five supported profile-type tags. -/
def supportedProfiles : List String :=
  ["sersic", "doublesersic", "pointsource", "exp", "dev"]

/-- Output shape of PixelRenderer.render_source by profile type: the Sersic
family renders on the X-shaped grid and is convolved; the point source is the
resampled kernel on the X-shaped coordinate grid (map_coordinates output takes
the coordinate shape) and is not convolved. -/
def pixelSourceShape (H W : ℕ) (ty : String) : Option (ℕ × ℕ) :=
  match ty with
  | "sersic" => convShape H W (xShape H W)
  | "doublesersic" => convShape H W (xShape H W)
  | "exp" => convShape H W (xShape H W)
  | "dev" => convShape H W (xShape H W)
  | "pointsource" => some (xShape H W)
  | _ => none

/-- Output shape of FourierRenderer.render_source by profile type: every
profile builds an FX-shaped frequency image and inverse-transforms it. -/
def fourierSourceShape (H W : ℕ) (ty : String) : Option (ℕ × ℕ) :=
  match ty with
  | "sersic" => convInvShape H W (fxShape H W)
  | "doublesersic" => convInvShape H W (fxShape H W)
  | "exp" => convInvShape H W (fxShape H W)
  | "dev" => convInvShape H W (fxShape H W)
  | "pointsource" => convInvShape H W (fxShape H W)
  | _ => none

/-- Output shape of HybridRenderer.render_source by profile type: the Sersic
family adds the X-shaped pixel-space image to the inverse-transformed
frequency image (a broadcast); the point source is purely Fourier. -/
def hybridSourceShape (H W : ℕ) (ty : String) : Option (ℕ × ℕ) :=
  match ty with
  | "sersic" => do bshape (xShape H W) (← convInvShape H W (fxShape H W))
  | "doublesersic" => do bshape (xShape H W) (← convInvShape H W (fxShape H W))
  | "exp" => do bshape (xShape H W) (← convInvShape H W (fxShape H W))
  | "dev" => do bshape (xShape H W) (← convInvShape H W (fxShape H W))
  | "pointsource" => convInvShape H W (fxShape H W)
  | _ => none

/-- The construction checks of BaseRenderer.__init__ in source order for an
image shape (H, W) and a PSF of shape (pH, pW) with total sum psfSum:
normalization check, lexicographic kernel-size check, PSF_fft broadcast. -/
def baseInitCheck {K : Type} [LinearOrderedField K] (H W pH pW : ℕ)
    (psfSum : K) : Except InitErr Unit :=
  if ¬(|psfSum - 1| ≤ 1e-8 + 0.1 * |(1 : K)|) then .error .psfNormalization
  else if H < pH ∨ (H = pH ∧ W < pW) then .error .kernelError
  else
    match psfFftShape H W with
    | some _ => .ok ()
    | none => .error .broadcastError

/-! ## Concrete instantiations used by the closed witnesses

The abstract numeric primitives are instantiated over ℚ with arbitrary
computable stand-ins; every theorem below holds for all instantiations, so any
choice serves for closed witness statements. -/

/-- An arbitrary computable instantiation of the numeric primitives over ℚ. -/
def ratKit : NumKit ℚ where
  pi := 3
  exp := fun _ => 1
  log := fun x => x
  log10 := fun x => x
  pow10 := fun x => x
  sqrt := fun x => x
  rpow := fun x _ => x
  cexp := fun _ => (1, 0)
  cpowr := fun z _ => z
  cos := fun _ => 1
  sin := fun _ => 0
  gammaln := fun _ => 0
  glNode := fun _ _ => 0
  glWeight := fun _ _ => 1

/-- An arbitrary instantiation of the FFT twiddle kernels over ℚ. -/
def ratFFT (N : ℕ) : FFTModel ℚ N where
  fwdRe := fun _ _ => 1
  fwdIm := fun _ _ => 0
  invRe := fun _ _ => 1
  invIm := fun _ _ => 0

/-- A concrete base geometry: a 4 x 4 image with a 1 x 1 delta PSF. -/
def ratBase : BaseGeom ℚ 4 where
  kit := ratKit
  fft := ratFFT 4
  psH := 1
  psW := 1
  psf := fun _ _ => 1

/-- A concrete PixelRenderer state with oversampling half-size 1 and order 2. -/
def ratPixel : PixelGeom ℚ 4 where
  base := ratBase
  osPixelSize := 1
  numOs := 2

/-- A concrete FourierRenderer state (one Gaussian component). -/
def ratFourier : FourierGeom ℚ 4 where
  base := ratBase
  fracStart := 1 / 100
  fracEnd := 15
  nSigma := 15
  precision := 10
  getAmpsSigmas := fun _ _ _ => ([1], [1])

/-- A concrete HybridRenderer state. -/
def ratHybrid : HybridGeom ℚ 4 where
  base := ratBase
  fracStart := 1 / 100
  fracEnd := 15
  nSigma := 15
  numPixelRender := 3
  precision := 10
  getAmpsSigmas := fun _ _ _ => ([1], [1])

/-- Concrete source list for order-invariance witnesses. -/
def srcListA : List (String × List ℚ) :=
  [("sersic", [0, 0, 1, 1, 1, 0, 0]), ("pointsource", [0, 0, 1])]

/-- The same sources in the opposite order. -/
def srcListB : List (String × List ℚ) :=
  [("pointsource", [0, 0, 1]), ("sersic", [0, 0, 1, 1, 1, 0, 0])]

/-! # Theorems -/

/-! ## Helper lemmas -/

/-- The normalized Python slice [sliceIdx lo L, sliceIdx hi L) is contained in
the integer interval [lo, hi) whenever hi is nonnegative. -/
theorem sliceIdx_subset {lo hi : ℤ} {L i : ℕ} (h1 : sliceIdx lo L ≤ i)
    (h2 : i < sliceIdx hi L) (hhi : 0 ≤ hi) : lo ≤ (i : ℤ) ∧ (i : ℤ) < hi := by
  unfold sliceIdx at h1 h2
  split at h1 <;> split at h2 <;> omega

/-- rfft2 is additive (it is a kernel sum). -/
theorem rfft2M_apply_add {K : Type} [LinearOrderedField K] {N : ℕ}
    (M : FFTModel K N) (a b : Pix N → K) (f : Freq N) :
    rfft2M M (a + b) f = rfft2M M a f + rfft2M M b f := by
  unfold rfft2M
  refine Prod.ext ?_ ?_ <;>
    simp [Pi.add_apply, mul_add, Finset.sum_add_distrib]

/-- conv_and_inv_FFT is additive in the frequency image (pointwise complex
multiplication by the fixed PSF kernel followed by the real-linear inverse
transform). -/
theorem convAndInvFFT_add {K : Type} [LinearOrderedField K] {N : ℕ}
    (g : BaseGeom K N) (F G : Freq N → Cx K) :
    convAndInvFFT g (F + G) = convAndInvFFT g F + convAndInvFFT g G := by
  funext p
  simp only [convAndInvFFT, irfft2M, Pi.add_apply]
  rw [← Finset.sum_add_distrib]
  refine Finset.sum_congr rfl fun f _ => ?_
  simp only [cMul, Pi.add_apply, Prod.fst_add, Prod.snd_add]
  ring

/-- The PixelRenderer conv is additive (FFT, pointwise multiplication and
inverse FFT are all linear). -/
theorem pixelConv_add {K : Type} [LinearOrderedField K] {N : ℕ}
    (g : BaseGeom K N) (a b : Pix N → K) :
    pixelConv g (a + b) = pixelConv g a + pixelConv g b := by
  funext p
  simp only [pixelConv, irfft2M, Pi.add_apply]
  rw [← Finset.sum_add_distrib]
  refine Finset.sum_congr rfl fun f _ => ?_
  rw [rfft2M_apply_add]
  simp only [cMul, Prod.fst_add, Prod.snd_add]
  ring

/-- The render_multi running total is invariant under permutations of the
source list: contributions are added in a commutative monoid, and a raising
source raises in both orders (there is a single error value). -/
theorem sumContrib_perm {S A : Type} [AddCommMonoid A]
    (contrib : S → Except LoopErr A) {l l' : List S} (h : l.Perm l') :
    sumContrib contrib l = sumContrib contrib l' := by
  induction h with
  | nil => rfl
  | cons x h ih =>
    simp only [sumContrib, ih]
  | swap x y l =>
    simp only [sumContrib]
    cases hx : contrib x <;> cases hy : contrib y <;>
      cases hr : sumContrib contrib l <;>
      simp_all <;>
      first
      | (rename_i e1 e2; cases e1; cases e2; rfl)
      | (rename_i e1; cases e1; rfl)
      | exact add_left_comm _ _ _
  | trans h1 h2 ih1 ih2 => exact ih1.trans ih2

/-- A source whose contribution is zero can be dropped from the front of the
render_multi list. -/
theorem sumContrib_skip {S A : Type} [AddCommMonoid A]
    (contrib : S → Except LoopErr A) (s : S) (h : contrib s = .ok 0)
    (l : List S) : sumContrib contrib (s :: l) = sumContrib contrib l := by
  show (match contrib s with
    | .error e => .error e
    | .ok a =>
      match sumContrib contrib l with
      | .error e => .error e
      | .ok b => .ok (a + b)) = sumContrib contrib l
  rw [h]
  cases hrest : sumContrib contrib l with
  | error e => rfl
  | ok b => simp [zero_add]

/-! ## Claims -/

/-- Claim C6: render_sky with sky type None returns 0; with the tag "flat" it
returns the constant c it was given; with the tag "tilted-plane" and parameters
[a, b, c] it returns, at every pixel (x, y) of the grid, exactly
a + b·(x - x_mid) + c·(y - y_mid) with x_mid = H/2 - 0.5 and y_mid = W/2 - 0.5
for image shape (H, W); concretely so on a 5 x 5 grid with a = 1, b = 0.1,
c = -0.2. -/
theorem render_sky_models {K : Type} [LinearOrderedField K] (H W : ℕ) :
    (∀ x : SkyArg K, renderSky H W x none = SkyOut.arg (SkyArg.num 0))
    ∧ (∀ c : K, renderSky H W (SkyArg.num c) (some ("flat"))
        = SkyOut.arg (SkyArg.num c))
    ∧ (∀ a b c : K, ∀ rest : List K,
        renderSky H W (SkyArg.vec (a :: b :: c :: rest)) (some ("tilted-plane"))
          = SkyOut.grid (fun p => a + (((p.2 : ℕ) : K) - ((H : K) / 2 - 0.5)) * b
              + (((p.1 : ℕ) : K) - ((W : K) / 2 - 0.5)) * c))
    ∧ renderSky 5 5 (SkyArg.vec [1, 0.1, -0.2]) (some ("tilted-plane"))
        = SkyOut.grid (fun p : Fin 5 × Fin 5 =>
            1 + (((p.2 : ℕ) : ℚ) - 2) * 0.1 + (((p.1 : ℕ) : ℚ) - 2) * (-0.2)) := by
  refine ⟨fun x => rfl, fun c => rfl, fun a b c rest => rfl, ?_⟩
  show SkyOut.grid _ = _
  congr 1
  funext p
  show (1 : ℚ) + (Xg p - gridMid 5) * 0.1 + (Yg p - gridMid 5) * (-0.2) = _
  unfold Xg Yg gridMid
  norm_num

/-- Claim C10: every sky_type other than None and the exact string "flat" --
including unrecognized tags such as "Flat" or "quadratic" -- raises no error
and evaluates the tilted-plane model on the given parameter array; there is no
rejection branch for unknown sky tags. -/
theorem render_sky_unknown_tag_tilted {K : Type} [LinearOrderedField K]
    (H W : ℕ) (ty : String) (hty : ty ≠ "flat") :
    (∀ x : SkyArg K, renderSky H W x (some ty) = tiltedPlaneSky H W x)
    ∧ (∀ a b c : K,
        renderSky H W (SkyArg.vec [a, b, c]) (some ty)
          = SkyOut.grid (fun p => a + (Xg p - gridMid H) * b
              + (Yg p - gridMid W) * c)) := by
  constructor
  · intro x
    simp [renderSky, hty]
  · intro a b c
    simp [renderSky, hty, tiltedPlaneSky]

/-- Witness for C10 at the concrete unknown tag "Flat" (capitalized, hence not
the recognized flat tag) on a 5 x 5 grid with parameters [1, 2, 3]. -/
theorem render_sky_unknown_tag_tilted_witness :
    (("Flat" : String) ≠ "flat")
    ∧ renderSky 5 5 (SkyArg.vec [(1 : ℚ), 2, 3]) (some ("Flat"))
        = SkyOut.grid (fun p => 1 + (Xg p - gridMid 5) * 2 + (Yg p - gridMid 5) * 3) :=
  ⟨by decide, (render_sky_unknown_tag_tilted 5 5 ("Flat") (by decide)).2 1 2 3⟩

/-- Claim C8: on the PixelRenderer the intrinsic (pre-convolution) Sersic image
agrees exactly with the plain closed-form evaluation render_sersic_2d at every
pixel outside the fixed central box
[i_mid - os_pixel_size, i_mid + os_pixel_size) x [i_mid - os, i_mid + os)
anchored at the image center (the bounds do not depend on the source position
xc, yc); pixels whose value is replaced all lie inside that box; and inside the
effective (slice-normalized) region the value is the Gauss-Legendre weighted
sub-pixel oversampled estimate. -/
theorem pixel_oversampling_box {K : Type} [LinearOrderedField K] {N : ℕ}
    (g : PixelGeom K N) (xc yc flux r_eff n ellip theta : K) (p : Pix N) :
    (¬(xOsLoZ g ≤ ((p.1 : ℕ) : ℤ) ∧ ((p.1 : ℕ) : ℤ) < xOsHiZ g
        ∧ xOsLoZ g ≤ ((p.2 : ℕ) : ℤ) ∧ ((p.2 : ℕ) : ℤ) < xOsHiZ g) →
      renderIntSersic g xc yc flux r_eff n ellip theta p
        = renderSersic2d g.base.kit (Xg p) (Yg p) xc yc flux r_eff n ellip theta)
    ∧ (renderIntSersic g xc yc flux r_eff n ellip theta p
        ≠ renderSersic2d g.base.kit (Xg p) (Yg p) xc yc flux r_eff n ellip theta →
      xOsLoZ g ≤ ((p.1 : ℕ) : ℤ) ∧ ((p.1 : ℕ) : ℤ) < xOsHiZ g
        ∧ xOsLoZ g ≤ ((p.2 : ℕ) : ℤ) ∧ ((p.2 : ℕ) : ℤ) < xOsHiZ g)
    ∧ ((osLoN g ≤ (p.1 : ℕ) ∧ (p.1 : ℕ) < osHiN g
        ∧ osLoN g ≤ (p.2 : ℕ) ∧ (p.2 : ℕ) < osHiN g) →
      renderIntSersic g xc yc flux r_eff n ellip theta p
        = ∑ a ∈ Finset.range g.numOs, ∑ b ∈ Finset.range g.numOs,
            renderSersic2d g.base.kit (Xg p + dxNode g b) (Yg p + dxNode g a)
                xc yc flux r_eff n ellip theta
              * (wNode g b * wNode g a)) := by
  have hhi : (0 : ℤ) ≤ xOsHiZ g := by unfold xOsHiZ; positivity
  have hsub : (osLoN g ≤ (p.1 : ℕ) ∧ (p.1 : ℕ) < osHiN g
      ∧ osLoN g ≤ (p.2 : ℕ) ∧ (p.2 : ℕ) < osHiN g) →
      (xOsLoZ g ≤ ((p.1 : ℕ) : ℤ) ∧ ((p.1 : ℕ) : ℤ) < xOsHiZ g
        ∧ xOsLoZ g ≤ ((p.2 : ℕ) : ℤ) ∧ ((p.2 : ℕ) : ℤ) < xOsHiZ g) := by
    rintro ⟨h1, h2, h3, h4⟩
    obtain ⟨hA, hB⟩ := sliceIdx_subset h1 h2 hhi
    obtain ⟨hC, hD⟩ := sliceIdx_subset h3 h4 hhi
    exact ⟨hA, hB, hC, hD⟩
  refine ⟨?_, ?_, ?_⟩
  · intro hbox
    unfold renderIntSersic
    rw [if_neg (fun hreg => hbox (hsub hreg))]
  · intro hdiff
    by_contra hbox
    exact hdiff
      (by unfold renderIntSersic; rw [if_neg (fun hreg => hbox (hsub hreg))])
  · intro hreg
    unfold renderIntSersic
    rw [if_pos hreg]

/-- Witness for C8: on the concrete 4 x 4 pixel geometry with oversampling
half-size 1, the pixel (0, 0) lies outside the central box [1, 3) x [1, 3), and
the intrinsic image there equals the plain closed-form evaluation. -/
theorem pixel_oversampling_box_witness :
    (¬(xOsLoZ ratPixel ≤ (((0 : Fin 4) : ℕ) : ℤ)
        ∧ (((0 : Fin 4) : ℕ) : ℤ) < xOsHiZ ratPixel
        ∧ xOsLoZ ratPixel ≤ (((0 : Fin 4) : ℕ) : ℤ)
        ∧ (((0 : Fin 4) : ℕ) : ℤ) < xOsHiZ ratPixel))
    ∧ renderIntSersic ratPixel 1 1 2 1 1 0 0 ((0 : Fin 4), (0 : Fin 4))
        = renderSersic2d ratPixel.base.kit (Xg ((0 : Fin 4), (0 : Fin 4)))
            (Yg ((0 : Fin 4), (0 : Fin 4))) 1 1 2 1 1 0 0 :=
  ⟨by decide,
   (pixel_oversampling_box ratPixel 1 1 2 1 1 0 0 ((0 : Fin 4), (0 : Fin 4))).1
     (by decide)⟩

/-- Claim C1 (code bug): dispatching the profile type dev through
HybridRenderer.render_multi is NOT the same as a sersic source with index 4:
the dev branch of the loop adds only the Fourier half F_cur of the hybrid
pair to F_tot and omits the pixel-space half im_cur, so the rendered image
misses exactly the pixel-space partial image that the sersic branch (and
render_source with tag dev, via render_dev -> render_sersic with n = 4)
includes. -/
theorem hybrid_render_multi_dev_omits_pixel_image {K : Type}
    [LinearOrderedField K] {N : ℕ} (g : HybridGeom K N)
    (xc yc flux r_eff ellip theta : K) :
    hybridRenderMulti g [("dev", [xc, yc, flux, r_eff, ellip, theta])]
      = Except.ok (convAndInvFFT g.base
          (hybridSersicPair g xc yc flux r_eff 4 ellip theta).1)
    ∧ hybridRenderMulti g [("sersic", [xc, yc, flux, r_eff, 4, ellip, theta])]
      = Except.ok (convAndInvFFT g.base
            (hybridSersicPair g xc yc flux r_eff 4 ellip theta).1
          + (hybridSersicPair g xc yc flux r_eff 4 ellip theta).2)
    ∧ hybridRenderSource g [xc, yc, flux, r_eff, ellip, theta] ("dev")
      = Except.ok ((hybridSersicPair g xc yc flux r_eff 4 ellip theta).2
          + convAndInvFFT g.base
              (hybridSersicPair g xc yc flux r_eff 4 ellip theta).1) := by
  refine ⟨?_, ?_, rfl⟩
  · simp [hybridRenderMulti, sumContrib, hybridContrib, Except.map]
  · simp [hybridRenderMulti, sumContrib, hybridContrib, Except.map]

/-- Claim C4: render_multi applied to a permuted source list returns the same
image as render_multi applied to the original list, on all three renderers
(contributions accumulate additively and a final shared convolution is
applied). -/
theorem render_multi_order_invariant {K : Type} [LinearOrderedField K]
    [FloorRing K] {N : ℕ} (gP : PixelGeom K N) (gF : FourierGeom K N)
    (gH : HybridGeom K N) {l l' : List (String × List K)} (h : l.Perm l') :
    pixelRenderMulti gP l = pixelRenderMulti gP l'
    ∧ fourierRenderMulti gF l = fourierRenderMulti gF l'
    ∧ hybridRenderMulti gH l = hybridRenderMulti gH l' := by
  have hp := sumContrib_perm (pixelContrib gP) h
  have hf := sumContrib_perm (fourierContrib gF) h
  have hh := sumContrib_perm (hybridContrib gH) h
  refine ⟨?_, ?_, ?_⟩ <;>
    simp only [pixelRenderMulti, fourierRenderMulti, hybridRenderMulti, hp, hf, hh]

/-- Witness for C4: the two-source list of a Sersic profile and a point source
is a permutation of its reversal, and all three renderers agree on the two
orders. -/
theorem render_multi_order_invariant_witness :
    srcListA.Perm srcListB
    ∧ (pixelRenderMulti ratPixel srcListA = pixelRenderMulti ratPixel srcListB
      ∧ fourierRenderMulti ratFourier srcListA = fourierRenderMulti ratFourier srcListB
      ∧ hybridRenderMulti ratHybrid srcListA = hybridRenderMulti ratHybrid srcListB) :=
  ⟨by decide, render_multi_order_invariant ratPixel ratFourier ratHybrid (by decide)⟩

/-- Claim C9: on every renderer, render_doublesersic equals the sum of the two
single-Sersic renders sharing the center and position angle, with fluxes
flux·f_1 and flux·(1 - f_1); the single shared PSF-convolution pass
distributes over the sum by linearity. -/
theorem render_doublesersic_sum_of_sersics {K : Type} [LinearOrderedField K]
    {N : ℕ} (gP : PixelGeom K N) (gF : FourierGeom K N) (gH : HybridGeom K N)
    (xc yc flux f_1 r_eff_1 n_1 ellip_1 r_eff_2 n_2 ellip_2 theta : K) :
    pixelRenderDoublesersic gP xc yc flux f_1 r_eff_1 n_1 ellip_1 r_eff_2 n_2 ellip_2 theta
      = pixelRenderSersic gP xc yc (flux * f_1) r_eff_1 n_1 ellip_1 theta
        + pixelRenderSersic gP xc yc (flux * (1 - f_1)) r_eff_2 n_2 ellip_2 theta
    ∧ fourierRenderDoublesersic gF xc yc flux f_1 r_eff_1 n_1 ellip_1 r_eff_2 n_2 ellip_2 theta
      = fourierRenderSersic gF xc yc (flux * f_1) r_eff_1 n_1 ellip_1 theta
        + fourierRenderSersic gF xc yc (flux * (1 - f_1)) r_eff_2 n_2 ellip_2 theta
    ∧ hybridRenderDoublesersic gH xc yc flux f_1 r_eff_1 n_1 ellip_1 r_eff_2 n_2 ellip_2 theta
      = hybridRenderSersic gH xc yc (flux * f_1) r_eff_1 n_1 ellip_1 theta
        + hybridRenderSersic gH xc yc (flux * (1 - f_1)) r_eff_2 n_2 ellip_2 theta := by
  refine ⟨pixelConv_add gP.base _ _, convAndInvFFT_add gF.base _ _, ?_⟩
  unfold hybridRenderDoublesersic hybridRenderSersic
  rw [convAndInvFFT_add]
  abel

/-- Counterexample to Claim C2: render_multi does not raise on an unknown
profile-type tag; the FourierRenderer applied to a list containing the unknown
tag "quadratic" silently skips it and returns exactly the image composed from
the remaining point source -- an ok result, not an UnsupportedProfileError. -/
theorem render_multi_silently_skips_unknown_tag :
    fourierRenderMulti ratFourier
        [("quadratic", [1, 2, 3]), ("pointsource", [0, 0, 1])]
      = fourierRenderMulti ratFourier [("pointsource", [0, 0, 1])]
    ∧ (fourierRenderMulti ratFourier
        [("quadratic", [1, 2, 3]), ("pointsource", [0, 0, 1])]).isOk = true := by
  constructor
  · have hskip := sumContrib_skip (fourierContrib ratFourier)
      (("quadratic"), ([1, 2, 3] : List ℚ)) rfl
      [(("pointsource" : String), ([0, 0, 1] : List ℚ))]
    simp only [fourierRenderMulti, hskip]
  · rfl

/-- Claim C2 as amended: for a tag with no matching render_* attribute,
render_source fails fast with an AttributeError from the getattr lookup (not
with an UnsupportedProfileError, which the dispatch never raises), on all three
renderers; render_multi, whose if/elif chain has no else branch, silently
skips such a source and returns the image composed from the remaining
sources. -/
theorem unknown_profile_attribute_error_and_silent_skip {K : Type}
    [LinearOrderedField K] [FloorRing K] {N : ℕ}
    (gP : PixelGeom K N) (gF : FourierGeom K N) (gH : HybridGeom K N)
    (ty : String) (params : List K) (rest : List (String × List K))
    (hP : ty ∉ pixelRenderAttrNames) (hF : ty ∉ fourierRenderAttrNames)
    (hH : ty ∉ hybridRenderAttrNames) :
    pixelRenderSource gP params ty = .error CallErr.attributeError
    ∧ fourierRenderSource gF params ty = .error CallErr.attributeError
    ∧ hybridRenderSource gH params ty = .error CallErr.attributeError
    ∧ pixelRenderMulti gP ((ty, params) :: rest) = pixelRenderMulti gP rest
    ∧ fourierRenderMulti gF ((ty, params) :: rest) = fourierRenderMulti gF rest
    ∧ hybridRenderMulti gH ((ty, params) :: rest) = hybridRenderMulti gH rest := by
  simp only [pixelRenderAttrNames, fourierRenderAttrNames, hybridRenderAttrNames,
    List.mem_cons, List.not_mem_nil, or_false, not_or] at hP hF hH
  obtain ⟨p1, p2, p3, p4, p5, p6, p7, p8, p9⟩ := hP
  obtain ⟨f1, f2, f3, f4, f5, f6, f7, f8, f9⟩ := hF
  obtain ⟨q1, q2, q3, q4, q5, q6, q7, q8, q9⟩ := hH
  have hPc : pixelContrib gP (ty, params) = .ok 0 := by
    unfold pixelContrib
    split
    · rename_i heq; exact absurd (congrArg Prod.fst heq) p3
    · rename_i heq; exact absurd (congrArg Prod.fst heq) p3
    · rename_i heq; exact absurd (congrArg Prod.fst heq) p1
    · rename_i heq; exact absurd (congrArg Prod.fst heq) p1
    · rename_i heq; exact absurd (congrArg Prod.fst heq) p4
    · rename_i heq; exact absurd (congrArg Prod.fst heq) p4
    · rename_i heq; exact absurd (congrArg Prod.fst heq) p5
    · rename_i heq; exact absurd (congrArg Prod.fst heq) p5
    · rename_i heq; exact absurd (congrArg Prod.fst heq) p2
    · rename_i heq; exact absurd (congrArg Prod.fst heq) p2
    · rfl
  have hFc : fourierContrib gF (ty, params) = .ok 0 := by
    unfold fourierContrib
    split
    · rename_i heq; exact absurd (congrArg Prod.fst heq) f3
    · rename_i heq; exact absurd (congrArg Prod.fst heq) f3
    · rename_i heq; exact absurd (congrArg Prod.fst heq) f1
    · rename_i heq; exact absurd (congrArg Prod.fst heq) f1
    · rename_i heq; exact absurd (congrArg Prod.fst heq) f4
    · rename_i heq; exact absurd (congrArg Prod.fst heq) f4
    · rename_i heq; exact absurd (congrArg Prod.fst heq) f5
    · rename_i heq; exact absurd (congrArg Prod.fst heq) f5
    · rename_i heq; exact absurd (congrArg Prod.fst heq) f2
    · rename_i heq; exact absurd (congrArg Prod.fst heq) f2
    · rfl
  have hHc : hybridContrib gH (ty, params) = .ok 0 := by
    unfold hybridContrib
    split
    · rename_i heq; exact absurd (congrArg Prod.fst heq) q3
    · rename_i heq; exact absurd (congrArg Prod.fst heq) q3
    · rename_i heq; exact absurd (congrArg Prod.fst heq) q1
    · rename_i heq; exact absurd (congrArg Prod.fst heq) q1
    · rename_i heq; exact absurd (congrArg Prod.fst heq) q4
    · rename_i heq; exact absurd (congrArg Prod.fst heq) q4
    · rename_i heq; exact absurd (congrArg Prod.fst heq) q5
    · rename_i heq; exact absurd (congrArg Prod.fst heq) q5
    · rename_i heq; exact absurd (congrArg Prod.fst heq) q2
    · rename_i heq; exact absurd (congrArg Prod.fst heq) q2
    · rfl
  refine ⟨?_, ?_, ?_, ?_, ?_, ?_⟩
  · unfold pixelRenderSource
    split
    · exact absurd rfl p1
    · exact absurd rfl p1
    · exact absurd rfl p2
    · exact absurd rfl p2
    · exact absurd rfl p3
    · exact absurd rfl p3
    · exact absurd rfl p4
    · exact absurd rfl p4
    · exact absurd rfl p5
    · exact absurd rfl p5
    · exact absurd rfl p6
    · exact absurd rfl p6
    · rw [if_neg (by simp [p7, p8, p9])]
  · unfold fourierRenderSource
    split
    · exact absurd rfl f1
    · exact absurd rfl f1
    · exact absurd rfl f2
    · exact absurd rfl f2
    · exact absurd rfl f3
    · exact absurd rfl f3
    · exact absurd rfl f4
    · exact absurd rfl f4
    · exact absurd rfl f5
    · exact absurd rfl f5
    · rw [if_neg (by simp [f7, f8, f9, f6])]
  · unfold hybridRenderSource
    split
    · exact absurd rfl q1
    · exact absurd rfl q1
    · exact absurd rfl q2
    · exact absurd rfl q2
    · exact absurd rfl q3
    · exact absurd rfl q3
    · exact absurd rfl q4
    · exact absurd rfl q4
    · exact absurd rfl q5
    · exact absurd rfl q5
    · rw [if_neg (by simp [q7, q8, q9, q6])]
  · simp only [pixelRenderMulti, sumContrib_skip (pixelContrib gP) _ hPc]
  · simp only [fourierRenderMulti, sumContrib_skip (fourierContrib gF) _ hFc]
  · simp only [hybridRenderMulti, sumContrib_skip (hybridContrib gH) _ hHc]

/-- Witness for the amended C2 at the concrete unknown tag "gaussian" with a
three-parameter list, on the concrete renderer states. -/
theorem unknown_profile_attribute_error_witness :
    (("gaussian" : String) ∉ pixelRenderAttrNames)
    ∧ pixelRenderSource ratPixel [1, 2, 3] ("gaussian")
        = .error CallErr.attributeError
    ∧ fourierRenderMulti ratFourier [(("gaussian" : String), ([1, 2, 3] : List ℚ))]
        = fourierRenderMulti ratFourier [] := by
  refine ⟨by decide, ?_, ?_⟩
  · exact (unknown_profile_attribute_error_and_silent_skip ratPixel ratFourier
      ratHybrid ("gaussian") [1, 2, 3] [] (by decide) (by decide) (by decide)).1
  · exact (unknown_profile_attribute_error_and_silent_skip ratPixel ratFourier
      ratHybrid ("gaussian") [1, 2, 3] [] (by decide) (by decide) (by decide)).2.2.2.2.1

/-- Counterexample to Claim C3: a PSF strictly larger than the image in one
axis does not necessarily make construction fail: with a 10 x 10 image and a
normalized 5 x 21 PSF, all construction checks pass, even though 21 exceeds 10
in axis 1.  The check compares the two shape TUPLES with the Python
lexicographic order (jnp.all is the identity on the resulting single bool), so
it fires only when H < pH, or H = pH and W < pW. -/
theorem kernel_check_single_axis_counterexample :
    ((10 : ℕ) < 21) ∧ baseInitCheck 10 10 5 21 (1 : ℚ) = Except.ok () := by
  refine ⟨by norm_num, ?_⟩
  have h1 : |(1 : ℚ) - 1| ≤ 1e-8 + 0.1 * |(1 : ℚ)| := by norm_num
  have h2 : psfFftShape 10 10 = some (10, 6) := by decide
  unfold baseInitCheck
  rw [if_neg (not_not_intro h1),
    if_neg (by norm_num : ¬((10 : ℕ) < 5 ∨ ((10 : ℕ) = 5 ∧ (10 : ℕ) < 21)))]
  simp [h2]

/-- Claim C3 as amended: given a PSF passing the normalization check,
construction fails with the kernel-size error exactly when the PSF shape
exceeds the image shape in the LEXICOGRAPHIC tuple order (H < pH, or H = pH
and W < pW) -- both shapes are Python tuples, so the comparison in the source
is not component-wise at all -- and in particular a 21 x 21 PSF with a
10 x 10 image does fail. -/
theorem kernel_check_lexicographic {K : Type} [LinearOrderedField K]
    (H W pH pW : ℕ) (s : K) (hs : |s - 1| ≤ 1e-8 + 0.1 * |(1 : K)|) :
    (baseInitCheck H W pH pW s = Except.error InitErr.kernelError
      ↔ (H < pH ∨ (H = pH ∧ W < pW)))
    ∧ baseInitCheck 10 10 21 21 (1 : ℚ) = Except.error InitErr.kernelError := by
  constructor
  · unfold baseInitCheck
    rw [if_neg (not_not_intro hs)]
    by_cases h : H < pH ∨ (H = pH ∧ W < pW)
    · simp [h]
    · rw [if_neg h]
      cases hps : psfFftShape H W <;> simp [h]
  · have h1 : |(1 : ℚ) - 1| ≤ 1e-8 + 0.1 * |(1 : ℚ)| := by norm_num
    unfold baseInitCheck
    rw [if_neg (not_not_intro h1)]
    norm_num

/-- Witness for the amended C3: with a unit-sum PSF, the kernel-size error on
a 3 x 3 image with a 4 x 4 PSF is equivalent to the lexicographic
comparison. -/
theorem kernel_check_lexicographic_witness :
    (|(1 : ℚ) - 1| ≤ 1e-8 + 0.1 * |(1 : ℚ)|)
    ∧ (baseInitCheck 3 3 4 4 (1 : ℚ) = Except.error InitErr.kernelError
        ↔ ((3 : ℕ) < 4 ∨ ((3 : ℕ) = 4 ∧ (3 : ℕ) < 4))) :=
  ⟨by norm_num, (kernel_check_lexicographic 3 3 4 4 (1 : ℚ) (by norm_num)).1⟩

/-- getD of the arr.at[j].multiply(c) update: the entry at j is scaled, the
others unchanged. -/
theorem listMulAt_getD {K : Type} [LinearOrderedField K] (l : List K) (j i : ℕ)
    (c : K) (hi : i < l.length) :
    (listMulAt l j c).getD i 0 = if j = i then l.getD i 0 * c else l.getD i 0 := by
  have hi2 : i < (listMulAt l j c).length := by simpa [listMulAt] using hi
  rw [List.getD_eq_getElem _ _ hi2]
  unfold listMulAt at hi2 ⊢
  rw [List.getElem_set]
  by_cases h : j = i
  · subst h
    rw [if_pos rfl, if_pos rfl]
  · rw [if_neg h, if_neg h, List.getD_eq_getElem _ _ hi]

/-- getD of a mapped list at an in-range index. -/
theorem listMap_getD {K : Type} [LinearOrderedField K] (f : K → K) (l : List K)
    (i : ℕ) (hi : i < l.length) : (l.map f).getD i 0 = f (l.getD i 0) := by
  rw [List.getD_eq_getElem _ _ (by simpa using hi), List.getElem_map,
    List.getD_eq_getElem _ _ hi]

/-- getD of a zipWith at an index in range of both lists. -/
theorem listZipWith_getD {K : Type} [LinearOrderedField K] (f : K → K → K)
    (l m : List K) (i : ℕ) (h1 : i < l.length) (h2 : i < m.length) :
    (l.zipWith f m).getD i 0 = f (l.getD i 0) (m.getD i 0) := by
  rw [List.getD_eq_getElem _ _ (by rw [List.length_zipWith]; omega),
    List.getElem_zipWith, List.getD_eq_getElem _ _ h1,
    List.getD_eq_getElem _ _ h2]

/-- Claim C7: the amplitudes returned by sersic_gauss_decomp equal
f_sigma · Δlogσ / sqrt(2π) · 2π·σ² componentwise, where f_sigma is the
etas-weighted sum of the real part of the 1-D Sersic profile at the complex
nodes σ·betas and Δlogσ is the log-spacing step, except that the first and the
last component carry an additional factor one half (open trapezoid at both
ends), for every component count of at least two. -/
theorem sersic_gauss_decomp_amps {K : Type} [LinearOrderedField K]
    (kit : NumKit K) (flux re n : K) (etas : List K) (betas : List (Cx K))
    (sigma_start sigma_end : K) (n_comp : ℕ) (h2 : 2 ≤ n_comp)
    (i : ℕ) (hi : i < n_comp) :
    (sersicGaussDecomp kit flux re n etas betas sigma_start sigma_end n_comp).1.getD i 0
      = (if i = 0 ∨ i = n_comp - 1 then (0.5 : K) else 1)
        * (fSigmaAt kit etas betas flux re n
            ((decompSigmas kit sigma_start sigma_end n_comp).getD i 0)
          * delLogSigmaK kit (decompSigmas kit sigma_start sigma_end n_comp)
          / kit.sqrt (2 * kit.pi))
        * (2 * kit.pi * ((decompSigmas kit sigma_start sigma_end n_comp).getD i 0)
          * ((decompSigmas kit sigma_start sigma_end n_comp).getD i 0)) := by
  have hlen : (decompSigmas kit sigma_start sigma_end n_comp).length = n_comp := by
    rw [decompSigmas, logspaceK, List.length_map, List.length_range]
  simp only [sersicGaussDecomp]
  generalize hsg : decompSigmas kit sigma_start sigma_end n_comp = sigmas at hlen ⊢
  set F := fSigmaAt kit etas betas flux re n with hFdef
  set Δ := delLogSigmaK kit sigmas with hDdef
  set sq := kit.sqrt (2 * kit.pi) with hsqdef
  set amps0 := (sigmas.map F).map (fun x => x * Δ / sq) with ha0
  have hlen0 : amps0.length = n_comp := by
    rw [ha0, List.length_map, List.length_map, hlen]
  set amps1 := listMulAt amps0 0 0.5 with ha1
  have hlen1 : amps1.length = n_comp := by
    rw [ha1, listMulAt, List.length_set, hlen0]
  rw [hlen1]
  set amps2 := listMulAt amps1 (n_comp - 1) 0.5 with ha2
  have hlen2 : amps2.length = n_comp := by
    rw [ha2, listMulAt, List.length_set, hlen1]
  have h0 : amps0.getD i 0 = F (sigmas.getD i 0) * Δ / sq := by
    rw [ha0, listMap_getD _ _ _ (by rw [List.length_map, hlen]; omega),
      listMap_getD _ _ _ (by omega)]
  have hA1 : amps1.getD i 0
      = if 0 = i then amps0.getD i 0 * 0.5 else amps0.getD i 0 := by
    rw [ha1]
    exact listMulAt_getD _ _ _ _ (by omega)
  have hA2 : amps2.getD i 0
      = if n_comp - 1 = i then amps1.getD i 0 * 0.5 else amps1.getD i 0 := by
    rw [ha2]
    exact listMulAt_getD _ _ _ _ (by omega)
  rw [listZipWith_getD _ _ _ i (by omega) (by omega), hA2, hA1, h0]
  by_cases hi0 : i = 0
  · subst hi0
    rw [if_pos (Or.inl rfl), if_neg (by omega : ¬(n_comp - 1 = 0)), if_pos rfl]
    ring
  · by_cases hil : i = n_comp - 1
    · rw [if_pos (Or.inr hil), if_pos (by omega : n_comp - 1 = i),
        if_neg (by omega : ¬((0 : ℕ) = i))]
      ring
    · rw [if_neg (by tauto : ¬(i = 0 ∨ i = n_comp - 1)),
        if_neg (by omega : ¬(n_comp - 1 = i)), if_neg (by omega : ¬((0 : ℕ) = i))]
      ring

/-- Witness for C7: the amplitude formula instantiated at component count 3,
middle index 1, one quadrature node, on the concrete ℚ primitives. -/
theorem sersic_gauss_decomp_amps_witness :
    ((2 : ℕ) ≤ 3) ∧ ((1 : ℕ) < 3)
    ∧ (sersicGaussDecomp ratKit 2 1 1 [1] [(1, 0)] 1 4 3).1.getD 1 0
      = (if (1 : ℕ) = 0 ∨ (1 : ℕ) = 3 - 1 then (0.5 : ℚ) else 1)
        * (fSigmaAt ratKit [1] [(1, 0)] 2 1 1 ((decompSigmas ratKit 1 4 3).getD 1 0)
          * delLogSigmaK ratKit (decompSigmas ratKit 1 4 3)
          / ratKit.sqrt (2 * ratKit.pi))
        * (2 * ratKit.pi * ((decompSigmas ratKit 1 4 3).getD 1 0)
          * ((decompSigmas ratKit 1 4 3).getD 1 0)) :=
  ⟨by norm_num, by norm_num,
   sersic_gauss_decomp_amps ratKit 2 1 1 [1] [(1, 0)] 1 4 3 (by norm_num) 1 (by norm_num)⟩

/-- Counterexample to Claim C5: a renderer can be successfully constructed on a
degenerate non-square image shape (H, W) = (1, 3) with a 1 x 1 normalized PSF
(all construction checks pass and the PSF FFT broadcasts), yet
render_source with the point-source profile on the Pixel renderer returns an
array of shape (3, 1) -- the transposed shape, not the image shape (1, 3) --
because the meshgrid coordinate arrays have shape (W, H). -/
theorem render_source_shape_counterexample :
    baseInitCheck 1 3 1 1 (1 : ℚ) = Except.ok ()
    ∧ pixelSourceShape 1 3 ("pointsource") = some (3, 1)
    ∧ ((3, 1) : ℕ × ℕ) ≠ (1, 3) := by
  refine ⟨?_, by decide, by decide⟩
  have h1 : |(1 : ℚ) - 1| ≤ 1e-8 + 0.1 * |(1 : ℚ)| := by norm_num
  have h2 : psfFftShape 1 3 = some (3, 2) := by decide
  unfold baseInitCheck
  rw [if_neg (not_not_intro h1),
    if_neg (by norm_num : ¬((1 : ℕ) < 1 ∨ ((1 : ℕ) = 1 ∧ (3 : ℕ) < 1)))]
  simp [h2]

/-- Claim C5 as amended: on a square N x N image every supported profile type
renders, on each of the three renderers, to an image of exactly the image
shape; for non-square shapes with both axes at least 2 the renderer
constructor itself fails (the recentring phase multiply cannot broadcast
rfft2(psf, s = im_shape) of shape (H, W/2+1) against the (W, H/2+1)-shaped
frequency grids), so no renderer can be constructed there; in the remaining
degenerate non-square shapes construction can succeed and the Pixel
point-source render is then transposed (see the counterexample). -/
theorem render_source_shape_square {N : ℕ} (ty : String)
    (hty : ty ∈ supportedProfiles) :
    (pixelSourceShape N N ty = some (N, N)
      ∧ fourierSourceShape N N ty = some (N, N)
      ∧ hybridSourceShape N N ty = some (N, N))
    ∧ ∀ H W : ℕ, 2 ≤ H → 2 ≤ W → H ≠ W → psfFftShape H W = none := by
  constructor
  · have hpsf : psfFftShape N N = some (N, N / 2 + 1) := by
      simp [psfFftShape, bshape, bdim, fxShape, rlen]
    have hconv : convShape N N (N, N) = some (N, N) := by
      simp [convShape, hpsf, bshape, bdim, rlen]
    have hcinv : convInvShape N N (N, N / 2 + 1) = some (N, N) := by
      simp [convInvShape, hpsf, bshape, bdim, rlen]
    simp only [supportedProfiles, List.mem_cons, List.not_mem_nil, or_false] at hty
    rcases hty with h | h | h | h | h <;> subst h <;>
      simp [pixelSourceShape, fourierSourceShape, hybridSourceShape, hconv,
        hcinv, xShape, fxShape, rlen, bshape, bdim]
  · intro H W hH hW hne
    have h1 : H ≠ 1 := by omega
    have h3 : W ≠ 1 := by omega
    simp [psfFftShape, bshape, bdim, fxShape, rlen, hne, h1, h3]

/-- Witness for the amended C5 at N = 3 with the point-source profile, and the
non-square construction failure at (H, W) = (4, 6). -/
theorem render_source_shape_square_witness :
    (("pointsource" : String) ∈ supportedProfiles)
    ∧ (pixelSourceShape 3 3 ("pointsource") = some (3, 3)
      ∧ fourierSourceShape 3 3 ("pointsource") = some (3, 3)
      ∧ hybridSourceShape 3 3 ("pointsource") = some (3, 3))
    ∧ ((2 : ℕ) ≤ 4) ∧ ((2 : ℕ) ≤ 6) ∧ ((4 : ℕ) ≠ 6)
    ∧ psfFftShape 4 6 = none :=
  ⟨by decide,
   (render_source_shape_square (N := 3) ("pointsource") (by decide)).1,
   by norm_num, by norm_num, by norm_num,
   (render_source_shape_square (N := 3) ("pointsource") (by decide)).2 4 6
     (by norm_num) (by norm_num) (by norm_num)⟩
